import Mathlib

/-!
A verification development for the ReverbWave repository.

The reverb engine (`src/SimpleReverb.cpp`, the enhanced variant with
high-frequency delay and crossover) and the spectrum-analysis pipeline
(`src/SpectrumAnalyzer.h` / `.cpp`) are shallowly embedded here.

Modelling conventions:
- C++ `float` samples, coefficients and parameters are modelled as exact
  rationals (`ℚ`); decimal literals such as `0.28f` become the exact
  rationals `28/100` etc.  All claims settled below depend only on facts
  (signs, orderings, exact cancellations) that are robust to this
  idealisation.
- `std::vector<float>` delay lines become `List ℚ` together with an
  integer cursor, mirroring the source's index-modulo-length discipline.
- the one transcendental coefficient of the engine
  (`lowpassCoeff = exp(-2*pi*crossoverFreq/sampleRate)`, with
  `crossoverFreq = 100 * 50^crossover`) is not a rational function of the
  parameters; every function that writes it is therefore parameterised by
  the rational `e` standing for that exponential's value.  No claim below
  depends on the value of `e`.
- fallible array accesses, where a claim is about their safety, are
  embedded with `Option`-returning checked operations.
-/

namespace ReverbWave

/-- C++ truncation `static_cast<int>` of a rational: rounds toward zero
(floor for nonnegative values, ceiling for negative ones). -/
def cppTrunc (q : ℚ) : ℤ := if 0 ≤ q then ⌊q⌋ else ⌈q⌉

/-- `std::vector<float>::resize(n, 0.0f)`: truncate to `n` elements or pad
with zeros up to `n` elements. -/
def resizeList (l : List ℚ) (n : ℕ) : List ℚ :=
  l.take n ++ List.replicate (n - l.length) 0

/-- A delay line: a circular buffer of samples plus its write/read cursor
(`std::vector<float>` plus the associated `int` index in the source). -/
structure DelayLine where
  buf : List ℚ
  idx : ℕ
  deriving DecidableEq

namespace SimpleReverb

/-- `SimpleReverb::Parameters` (enhanced variant, `SimpleReverb.cpp` lines
414-435). -/
structure Parameters where
  roomSize : ℚ
  damping : ℚ
  wetLevel : ℚ
  dryLevel : ℚ
  width : ℚ
  freezeMode : ℚ
  highFreqDelay : ℚ
  crossover : ℚ
  deriving DecidableEq

/-- The `Parameters()` default constructor. -/
def defaultParameters : Parameters :=
  { roomSize := 1/2, damping := 1/2, wetLevel := 33/100, dryLevel := 2/5,
    width := 1, freezeMode := 0, highFreqDelay := 3/10, crossover := 1/2 }

/-- `combTuning` (line 712): delay lengths in samples at 44.1kHz. -/
def combTuning : Fin 8 → ℕ := ![1116, 1188, 1277, 1356, 1422, 1491, 1557, 1617]

/-- `allpassTuning` (line 720). -/
def allpassTuning : Fin 4 → ℕ := ![556, 441, 341, 225]

/-- `maxHighFreqDelay` (line 724). -/
def maxHighFreqDelay : ℕ := 500

/-- The mutable state of a `SimpleReverb` object: its parameters and all
filter/delay-line state (lines 699-732). -/
structure State where
  parameters : Parameters
  sampleRate : ℚ
  combs : Fin 8 → DelayLine
  feedbackCoeffs : Fin 8 → ℚ
  dampCoeffs : Fin 8 → ℚ
  previousCombs : Fin 8 → ℚ
  allpasses : Fin 4 → DelayLine
  highFreq : Fin 2 → DelayLine
  highFreqDelayAmount : ℚ
  lowpassCoeff : ℚ
  lowpassState : Fin 2 → ℚ
  deriving DecidableEq

/-- The member-initialised state of a `SimpleReverb` object before the
constructor body runs: default parameters, empty delay lines, zero
coefficients and filter state. -/
def rawMemberState : State :=
  { parameters := defaultParameters
    sampleRate := 44100
    combs := fun _ => ⟨[], 0⟩
    feedbackCoeffs := fun _ => 0
    dampCoeffs := fun _ => 0
    previousCombs := fun _ => 0
    allpasses := fun _ => ⟨[], 0⟩
    highFreq := fun _ => ⟨[], 0⟩
    highFreqDelayAmount := 0
    lowpassCoeff := 0
    lowpassState := fun _ => 0 }

/-- `SimpleReverb::setParameters` (lines 445-464), with the trailing
`updateHighFreqDelay()` call (lines 690-697) inlined.  `e` stands for the
transcendental value `exp(-2*pi*(100*50^crossover)/sampleRate)` assigned
to `lowpassCoeff`. -/
def setParameters (e : ℚ) (params : Parameters) (s : State) : State :=
  let roomScale : ℚ := 28/100 + 1/2 * params.roomSize
  let dampScale : ℚ := 2/5 * params.damping
  { s with
    parameters := params
    feedbackCoeffs := fun i => roomScale * (combTuning i : ℚ) / 100
    dampCoeffs := fun _ => dampScale
    lowpassCoeff := e
    highFreqDelayAmount := (maxHighFreqDelay : ℚ) * params.highFreqDelay }

/-- `SimpleReverb::setSampleRate` (lines 467-499), with
`updateHighFreqDelay()` inlined as in `setParameters`. -/
def setSampleRate (e : ℚ) (sampleRate : ℚ) (s : State) : State :=
  let scaleFactor : ℚ := sampleRate / 44100
  { s with
    sampleRate := sampleRate
    combs := fun i =>
      ⟨resizeList (s.combs i).buf (cppTrunc ((combTuning i : ℚ) * scaleFactor)).toNat, 0⟩
    allpasses := fun i =>
      ⟨resizeList (s.allpasses i).buf (cppTrunc ((allpassTuning i : ℚ) * scaleFactor)).toNat, 0⟩
    highFreq := fun i =>
      ⟨resizeList (s.highFreq i).buf (cppTrunc ((maxHighFreqDelay : ℚ) * scaleFactor)).toNat, 0⟩
    lowpassCoeff := e
    highFreqDelayAmount := (maxHighFreqDelay : ℚ) * s.parameters.highFreqDelay
    lowpassState := fun _ => 0 }

/-- `SimpleReverb::reset` (lines 502-521): zero-fill every delay line
(cursors are not reset) and clear the crossover filter states.  Note the
source does not clear `previousCombs`. -/
def reset (s : State) : State :=
  { s with
    combs := fun i => ⟨(s.combs i).buf.map (fun _ => 0), (s.combs i).idx⟩
    allpasses := fun i => ⟨(s.allpasses i).buf.map (fun _ => 0), (s.allpasses i).idx⟩
    highFreq := fun i => ⟨(s.highFreq i).buf.map (fun _ => 0), (s.highFreq i).idx⟩
    lowpassState := fun _ => 0 }

/-- The `SimpleReverb()` constructor (lines 437-442):
`setParameters(Parameters()); setSampleRate(44100.0f); reset();`. -/
def mkSimpleReverb (e : ℚ) : State :=
  reset (setSampleRate e 44100 (setParameters e defaultParameters rawMemberState))

/-- `SimpleReverb::processComb` (lines 628-645): read the delayed sample,
update the damped feedback state, write
`input + feedback * feedbackCoeffs[i] * (1 - freezeMode)` into the delay
slot and advance the cursor modulo the buffer length.  Returns the
delayed sample as the filter output. -/
def processComb (s : State) (index : Fin 8) (input : ℚ) : ℚ × State :=
  let dl := s.combs index
  let output := dl.buf.getD dl.idx 0
  let feedback := output * (1 - s.dampCoeffs index) + s.previousCombs index * s.dampCoeffs index
  let newSample := input + feedback * s.feedbackCoeffs index * (1 - s.parameters.freezeMode)
  (output,
   { s with
     previousCombs := Function.update s.previousCombs index feedback
     combs := Function.update s.combs index
       ⟨dl.buf.set dl.idx newSample, (dl.idx + 1) % dl.buf.length⟩ })

/-- `SimpleReverb::processAllpass` (lines 648-661):
`output = -input + delayed`; store `input + output * 0.5` in the delay
slot; advance the cursor modulo the buffer length. -/
def processAllpass (s : State) (index : Fin 4) (input : ℚ) : ℚ × State :=
  let dl := s.allpasses index
  let output := -input + dl.buf.getD dl.idx 0
  (output,
   { s with
     allpasses := Function.update s.allpasses index
       ⟨dl.buf.set dl.idx (input + output * (1/2)), (dl.idx + 1) % dl.buf.length⟩ })

/-- `SimpleReverb::splitFrequencies` (lines 664-671): one-pole lowpass,
high band is the residual.  Returns `(lowOut, highOut, newState)`. -/
def splitFrequencies (s : State) (input : ℚ) (channel : Fin 2) : ℚ × ℚ × State :=
  let lowOut := (1 - s.lowpassCoeff) * input + s.lowpassCoeff * s.lowpassState channel
  (lowOut, input - lowOut,
   { s with lowpassState := Function.update s.lowpassState channel lowOut })

/-- `SimpleReverb::processHighFreqDelay` (lines 674-687): write the input
at the cursor, read back `delayLength` samples behind it, advance the
cursor.  The C++ index expression `(idx - delayLength + size) % size` is
computed over `ℤ` with `Int.emod`, which agrees with the C++ `%` whenever
the dividend is nonnegative (always the case in the source, where
`delayLength ≤ size`). -/
def processHighFreqDelay (s : State) (input : ℚ) (channel : Fin 2) : ℚ × State :=
  let dl := s.highFreq channel
  let buf1 := dl.buf.set dl.idx input
  let delayLength : ℤ := cppTrunc s.highFreqDelayAmount
  let readIndex : ℕ := (((dl.idx : ℤ) - delayLength + (buf1.length : ℤ)) % (buf1.length : ℤ)).toNat
  (buf1.getD readIndex 0,
   { s with highFreq := Function.update s.highFreq channel ⟨buf1, (dl.idx + 1) % buf1.length⟩ })

/-- The comb-summing loop of `processMono` (lines 535-537 and 544-546):
`for j in indices: acc += processComb(j, input)`. -/
def combSumLoop (input : ℚ) : List (Fin 8) → ℚ → State → ℚ × State
  | [], acc, s => (acc, s)
  | j :: rest, acc, s =>
    let r := processComb s j input
    combSumLoop input rest (acc + r.1) r.2

/-- The series allpass loop of `processMono` (lines 552-555). -/
def allpassChainLoop : List (Fin 4) → ℚ → State → ℚ × State
  | [], x, s => (x, s)
  | j :: rest, x, s =>
    let r := processAllpass s j x
    allpassChainLoop rest r.1 r.2

/-- One iteration of the `processMono` loop body (lines 525-562). -/
def processMonoSample (s : State) (input : ℚ) : ℚ × State :=
  let sp := splitFrequencies s input 0
  let lowFreq := sp.1
  let highFreq := sp.2.1
  let c1 := combSumLoop lowFreq (List.finRange 8) 0 sp.2.2
  let hd := processHighFreqDelay c1.2 highFreq 0
  let c2 := combSumLoop hd.1 (List.finRange 8) 0 hd.2
  let combOut := c1.1 + c2.1
  let ap := allpassChainLoop (List.finRange 4) combOut c2.2
  (s.parameters.dryLevel * input + s.parameters.wetLevel * ap.1, ap.2)

/-- `SimpleReverb::processMono` (lines 524-563) on a caller-supplied
buffer, returned processed in place together with the final state. -/
def processMono (s : State) : List ℚ → List ℚ × State
  | [] => ([], s)
  | x :: xs =>
    let r := processMonoSample s x
    let rest := processMono r.2 xs
    (r.1 :: rest.1, rest.2)

/-- The stereo comb loop of `processStereo` (lines 595-601): for
`j = 0..3`, comb `j` processes the left low band, comb `j+4` the right
low band, then comb `j` the delayed left high band and comb `j+4` the
delayed right high band, each output added to its accumulator. -/
def stereoCombLoop (lowL lowR hdL hdR : ℚ) :
    List (Fin 4) → ℚ × ℚ × ℚ × ℚ → State → (ℚ × ℚ × ℚ × ℚ) × State
  | [], acc, s => (acc, s)
  | j :: rest, acc, s =>
    let r1 := processComb s (j.castAdd 4) lowL
    let r2 := processComb r1.2 (j.natAdd 4) lowR
    let r3 := processComb r2.2 (j.castAdd 4) hdL
    let r4 := processComb r3.2 (j.natAdd 4) hdR
    stereoCombLoop lowL lowR hdL hdR rest
      (acc.1 + r1.1, acc.2.1 + r2.1, acc.2.2.1 + r3.1, acc.2.2.2 + r4.1) r4.2

/-- The stereo allpass loop of `processStereo` (lines 611-614): each
allpass `j` processes the left then the right channel. -/
def allpassStereoLoop : List (Fin 4) → ℚ → ℚ → State → ℚ × ℚ × State
  | [], l, r, s => (l, r, s)
  | j :: rest, l, r, s =>
    let rl := processAllpass s j l
    let rr := processAllpass rl.2 j r
    allpassStereoLoop rest rl.1 rr.1 rr.2

/-- The wet-signal computation of the `processStereo` loop body (lines
576-618): everything between the mono average and the final wet/dry mix.
In the source this block reads the per-sample inputs only through
`monoInput`. -/
def wetStereoSample (s : State) (monoInput : ℚ) : ℚ × ℚ × State :=
  let spL := splitFrequencies s monoInput 0
  let spR := splitFrequencies spL.2.2 monoInput 1
  let hdL := processHighFreqDelay spR.2.2 spL.2.1 0
  let hdR := processHighFreqDelay hdL.2 spR.2.1 1
  let cl := stereoCombLoop spL.1 spR.1 hdL.1 hdR.1 (List.finRange 4) (0, 0, 0, 0) hdR.2
  let combOutL := cl.1.1 + cl.1.2.2.1
  let combOutR := cl.1.2.1 + cl.1.2.2.2
  match allpassStereoLoop (List.finRange 4) combOutL combOutR cl.2 with
  | (allpassOutL, allpassOutR, s1) =>
    let spread := s.parameters.width
    (allpassOutL + (allpassOutR - allpassOutL) * (1 - spread),
     allpassOutR + (allpassOutL - allpassOutR) * (1 - spread),
     s1)

/-- One iteration of the `processStereo` loop body (lines 569-623). -/
def processStereoSample (s : State) (inputL inputR : ℚ) : ℚ × ℚ × State :=
  let monoInput := (inputL + inputR) * (1/2)
  let w := wetStereoSample s monoInput
  (s.parameters.dryLevel * inputL + s.parameters.wetLevel * w.1,
   s.parameters.dryLevel * inputR + s.parameters.wetLevel * w.2.1,
   w.2.2)

/-- `SimpleReverb::processStereo` (lines 566-624) on caller-supplied
left/right buffers of equal length. -/
def processStereo (s : State) : List ℚ → List ℚ → List ℚ × List ℚ × State
  | l :: ls, r :: rs =>
    let p := processStereoSample s l r
    let rest := processStereo p.2.2 ls rs
    (p.1 :: rest.1, p.2.1 :: rest.2.1, rest.2.2)
  | _, _ => ([], [], s)

end SimpleReverb

namespace SpectrumAnalyzer

/-- The FIFO/double-buffer state of a `SpectrumAnalyzer` object
(`SpectrumAnalyzer.h` lines 343-374): the FFT window size, the sample
FIFO with its fill index, the pending-frame flag and the frozen analysis
buffer.  Buffers of length `fftSize` are modelled as functions on ℕ
(only indices below `fftSize` are ever read or written by the source). -/
structure AnalyzerState where
  fftSize : ℕ
  fifo : ℕ → ℚ
  fifoIndex : ℕ
  nextFFTBlockReady : Bool
  fftData : ℕ → ℚ

/-- `SpectrumAnalyzer::pushSample` (`SpectrumAnalyzer.cpp` lines 75-86):
when the FIFO has reached capacity, snapshot it into `fftData` and raise
the ready flag only if no frame is already pending, then reset the fill
index; in every case append the sample at the fill index. -/
def pushSample (s : AnalyzerState) (sample : ℚ) : AnalyzerState :=
  let s1 :=
    if s.fifoIndex = s.fftSize then
      if s.nextFFTBlockReady = false then
        { s with
          fftData := fun n => if n < s.fftSize then s.fifo n else s.fftData n
          nextFFTBlockReady := true
          fifoIndex := 0 }
      else { s with fifoIndex := 0 }
    else s
  { s1 with
    fifo := fun n => if n = s1.fifoIndex then sample else s1.fifo n
    fifoIndex := s1.fifoIndex + 1 }

/-- The `SpectrumAnalyzer()` constructor (`SpectrumAnalyzer.h` lines
109-140): `fftSize = 1 << 11 = 2048`, empty FIFO, no pending frame. -/
def initAnalyzer : AnalyzerState :=
  { fftSize := 2048, fifo := fun _ => 0, fifoIndex := 0,
    nextFFTBlockReady := false, fftData := fun _ => 0 }

/-- `n` consecutive `pushSample` calls, all with sample value `v`. -/
def pushManyC (v : ℚ) : ℕ → AnalyzerState → AnalyzerState
  | 0, s => s
  | n + 1, s => pushManyC v n (pushSample s v)

/-- Analyzer states reachable from the constructor by `pushSample` calls
alone (no intervening `update()`). -/
inductive ReachableA : AnalyzerState → Prop
  | init : ReachableA initAnalyzer
  | push (s : AnalyzerState) (x : ℚ) : ReachableA s → ReachableA (pushSample s x)

/-- Bounds-checked write `l[i] = v` into a fixed-length buffer: `none`
models an out-of-bounds array store (undefined behaviour in the C++). -/
def setAtOpt (l : List ℚ) (i : ℕ) (v : ℚ) : Option (List ℚ) :=
  if i < l.length then some (l.set i v) else none

/-- The output loop of `FFT::calculateMagnitudeSpectrum`
(`SpectrumAnalyzer.cpp` lines 66-70): `for i in [0, size/2):
output[start+i] = vals[i]` with `start = 0` at the call site, each store
bounds-checked.  `vals` are the computed magnitudes `|X[i]|/(size/2)`;
whether a store is in bounds depends only on the lengths involved. -/
def writeMagnitudes : List ℚ → List ℚ → ℕ → Option (List ℚ)
  | out, [], _ => some out
  | out, v :: vs, start =>
    match setAtOpt out start v with
    | none => none
    | some out1 => writeMagnitudes out1 vs (start + 1)

/-- `fftSize` as fixed by the `SpectrumAnalyzer` constructor. -/
def fftSizeVal : ℕ := 2048

/-- `scopeSize` as fixed by the `SpectrumAnalyzer` constructor. -/
def scopeSizeVal : ℕ := 512

/-- Checked rational division: `none` models a division whose divisor is
zero (in the C++ float code, a `0/0` producing NaN). -/
def checkedDiv (a b : ℚ) : Option ℚ := if b = 0 then none else some (a / b)

/-- The Hann-window loop of `FFT::calculateMagnitudeSpectrum`
(`SpectrumAnalyzer.cpp` lines 52-55) over a given index list:
`window = 0.5 * (1 - cos(2*pi*i/(numSamples-1)))`.  The cosine argument
is carried in half-turn units (`2*i/(numSamples-1)`, i.e. the multiple
of `pi`) and `cosFn` stands for the transcendental `cos(pi * _)`; the
division by `numSamples - 1` is the checked operation. -/
def hannWindowLoop (cosFn : ℚ → ℚ) (numSamples : ℕ) : List ℕ → Option (List ℚ)
  | [] => some []
  | i :: is =>
    match checkedDiv (2 * (i : ℚ)) ((numSamples : ℚ) - 1) with
    | none => none
    | some a =>
      match hannWindowLoop cosFn numSamples is with
      | none => none
      | some ws => some ((1/2 * (1 - cosFn a)) :: ws)

/-- The full Hann-window pass: the source loop runs for
`i < numSamples && i < size`. -/
def hannWindow (cosFn : ℚ → ℚ) (numSamples size : ℕ) : Option (List ℚ) :=
  hannWindowLoop cosFn numSamples (List.range (min numSamples size))

end SpectrumAnalyzer

/-! ### General helper lemmas -/

theorem getD_zero_of_all_zero {l : List ℚ} (h : ∀ x ∈ l, x = 0) (n : ℕ) :
    l.getD n 0 = 0 := by
  rw [List.getD_eq_getElem?_getD]
  cases hl : l[n]? with
  | none => rfl
  | some x => simpa using h x (List.getElem?_mem hl)

theorem all_zero_set {l : List ℚ} (h : ∀ x ∈ l, x = 0) (n : ℕ) :
    ∀ x ∈ l.set n 0, x = 0 :=
  fun x hx => (List.mem_or_eq_of_mem_set hx).elim (h x) id

theorem all_zero_map_zero (l : List ℚ) : ∀ x ∈ l.map (fun _ => (0:ℚ)), x = 0 := by
  simp

theorem all_zero_replicate (n : ℕ) : ∀ x ∈ List.replicate n (0:ℚ), x = 0 := by
  simp

/-! ### Claim C5: silence invariance

From a state whose delay lines and filter states are all zero (as
established by the constructor / `reset`), processing all-zero stereo
buffers of any length leaves the buffers all-zero. -/

/-- A delay line whose buffer is identically zero. -/
def DLZero (d : DelayLine) : Prop := ∀ x ∈ d.buf, x = 0

/-- All filter and delay-line state of the engine is zero (the state
established by `reset()` on a freshly constructed engine). -/
def ZeroFilters (s : SimpleReverb.State) : Prop :=
  (∀ i, DLZero (s.combs i)) ∧ (∀ i, s.previousCombs i = 0) ∧
  (∀ j, DLZero (s.allpasses j)) ∧ (∀ c, DLZero (s.highFreq c)) ∧
  (∀ c, s.lowpassState c = 0)

theorem processComb_zero (s : SimpleReverb.State) (i : Fin 8) (x : ℚ)
    (hx : x = 0) (hz : ZeroFilters s) :
    (SimpleReverb.processComb s i x).1 = 0 ∧
    ZeroFilters (SimpleReverb.processComb s i x).2 := by
  subst hx
  obtain ⟨hc, hp, ha, hh, hl⟩ := hz
  have hout : ((s.combs i).buf).getD (s.combs i).idx 0 = 0 :=
    getD_zero_of_all_zero (hc i) _
  have hfb : (s.combs i).buf.getD (s.combs i).idx 0 * (1 - s.dampCoeffs i)
      + s.previousCombs i * s.dampCoeffs i = 0 := by
    rw [hout, hp i]; ring
  refine ⟨hout, ?_, ?_, ha, hh, hl⟩
  · intro j
    simp only [SimpleReverb.processComb, Function.update_apply]
    by_cases hij : j = i
    · rw [if_pos hij]
      intro y hy
      rcases List.mem_or_eq_of_mem_set hy with hmem | hval
      · exact hc i y hmem
      · rw [hval, hfb]; ring
    · rw [if_neg hij]; exact hc j
  · intro j
    simp only [SimpleReverb.processComb, Function.update_apply]
    by_cases hij : j = i
    · rw [if_pos hij]; exact hfb
    · rw [if_neg hij]; exact hp j

theorem processAllpass_zero (s : SimpleReverb.State) (j : Fin 4) (x : ℚ)
    (hx : x = 0) (hz : ZeroFilters s) :
    (SimpleReverb.processAllpass s j x).1 = 0 ∧
    ZeroFilters (SimpleReverb.processAllpass s j x).2 := by
  subst hx
  obtain ⟨hc, hp, ha, hh, hl⟩ := hz
  have hout : ((s.allpasses j).buf).getD (s.allpasses j).idx 0 = 0 :=
    getD_zero_of_all_zero (ha j) _
  constructor
  · show -(0:ℚ) + (s.allpasses j).buf.getD (s.allpasses j).idx 0 = 0
    rw [hout]; ring
  · refine ⟨hc, hp, ?_, hh, hl⟩
    intro k
    simp only [SimpleReverb.processAllpass, Function.update_apply]
    by_cases hkj : k = j
    · rw [if_pos hkj]
      intro y hy
      rcases List.mem_or_eq_of_mem_set hy with hmem | hval
      · exact ha j y hmem
      · rw [hval, hout]; ring
    · rw [if_neg hkj]; exact ha k

theorem processHighFreqDelay_zero (s : SimpleReverb.State) (ch : Fin 2) (x : ℚ)
    (hx : x = 0) (hz : ZeroFilters s) :
    (SimpleReverb.processHighFreqDelay s x ch).1 = 0 ∧
    ZeroFilters (SimpleReverb.processHighFreqDelay s x ch).2 := by
  subst hx
  obtain ⟨hc, hp, ha, hh, hl⟩ := hz
  have hbuf1 : ∀ y ∈ (s.highFreq ch).buf.set (s.highFreq ch).idx 0, y = 0 :=
    all_zero_set (hh ch) _
  constructor
  · exact getD_zero_of_all_zero hbuf1 _
  · refine ⟨hc, hp, ha, ?_, hl⟩
    intro c
    simp only [SimpleReverb.processHighFreqDelay, Function.update_apply]
    by_cases hcc : c = ch
    · rw [if_pos hcc]; exact hbuf1
    · rw [if_neg hcc]; exact hh c

theorem splitFrequencies_zero (s : SimpleReverb.State) (ch : Fin 2) (x : ℚ)
    (hx : x = 0) (hz : ZeroFilters s) :
    (SimpleReverb.splitFrequencies s x ch).1 = 0 ∧
    (SimpleReverb.splitFrequencies s x ch).2.1 = 0 ∧
    ZeroFilters (SimpleReverb.splitFrequencies s x ch).2.2 := by
  subst hx
  obtain ⟨hc, hp, ha, hh, hl⟩ := hz
  have hlow : (1 - s.lowpassCoeff) * 0 + s.lowpassCoeff * s.lowpassState ch = 0 := by
    rw [hl ch]; ring
  refine ⟨hlow, ?_, hc, hp, ha, hh, ?_⟩
  · show (0:ℚ) - ((1 - s.lowpassCoeff) * 0 + s.lowpassCoeff * s.lowpassState ch) = 0
    rw [hlow]; ring
  · intro c
    simp only [SimpleReverb.splitFrequencies, Function.update_apply]
    by_cases hcc : c = ch
    · rw [if_pos hcc]; exact hlow
    · rw [if_neg hcc]; exact hl c

theorem stereoCombLoop_zero (js : List (Fin 4)) :
    ∀ (a b c d : ℚ) (acc : ℚ × ℚ × ℚ × ℚ) (s : SimpleReverb.State),
    a = 0 → b = 0 → c = 0 → d = 0 →
    acc.1 = 0 → acc.2.1 = 0 → acc.2.2.1 = 0 → acc.2.2.2 = 0 → ZeroFilters s →
    ((SimpleReverb.stereoCombLoop a b c d js acc s).1.1 = 0 ∧
     (SimpleReverb.stereoCombLoop a b c d js acc s).1.2.1 = 0 ∧
     (SimpleReverb.stereoCombLoop a b c d js acc s).1.2.2.1 = 0 ∧
     (SimpleReverb.stereoCombLoop a b c d js acc s).1.2.2.2 = 0) ∧
    ZeroFilters (SimpleReverb.stereoCombLoop a b c d js acc s).2 := by
  induction js with
  | nil =>
    intro a b c d acc s _ _ _ _ h1 h2 h3 h4 hz
    exact ⟨⟨h1, h2, h3, h4⟩, hz⟩
  | cons j js ih =>
    intro a b c d acc s hA hB hC hD h1 h2 h3 h4 hz
    obtain ⟨o1, z1⟩ := processComb_zero s (j.castAdd 4) a hA hz
    obtain ⟨o2, z2⟩ := processComb_zero _ (j.natAdd 4) b hB z1
    obtain ⟨o3, z3⟩ := processComb_zero _ (j.castAdd 4) c hC z2
    obtain ⟨o4, z4⟩ := processComb_zero _ (j.natAdd 4) d hD z3
    exact ih a b c d _ _ hA hB hC hD
      (by simp only; rw [h1, o1]; ring) (by simp only; rw [h2, o2]; ring)
      (by simp only; rw [h3, o3]; ring) (by simp only; rw [h4, o4]; ring) z4

theorem allpassStereoLoop_zero (js : List (Fin 4)) :
    ∀ (l r : ℚ) (s : SimpleReverb.State), l = 0 → r = 0 → ZeroFilters s →
    (SimpleReverb.allpassStereoLoop js l r s).1 = 0 ∧
    (SimpleReverb.allpassStereoLoop js l r s).2.1 = 0 ∧
    ZeroFilters (SimpleReverb.allpassStereoLoop js l r s).2.2 := by
  induction js with
  | nil => intro l r s hl hr hz; exact ⟨hl, hr, hz⟩
  | cons j js ih =>
    intro l r s hl hr hz
    obtain ⟨ol, zl⟩ := processAllpass_zero s j l hl hz
    obtain ⟨og, zg⟩ := processAllpass_zero _ j r hr zl
    exact ih _ _ _ ol og zg

theorem wetStereoSample_zero (s : SimpleReverb.State) (m : ℚ)
    (hm : m = 0) (hz : ZeroFilters s) :
    (SimpleReverb.wetStereoSample s m).1 = 0 ∧
    (SimpleReverb.wetStereoSample s m).2.1 = 0 ∧
    ZeroFilters (SimpleReverb.wetStereoSample s m).2.2 := by
  obtain ⟨spL, hspL⟩ : ∃ t, SimpleReverb.splitFrequencies s m 0 = t := ⟨_, rfl⟩
  obtain ⟨spR, hspR⟩ : ∃ t, SimpleReverb.splitFrequencies spL.2.2 m 1 = t := ⟨_, rfl⟩
  obtain ⟨hdL, hhdL⟩ : ∃ t, SimpleReverb.processHighFreqDelay spR.2.2 spL.2.1 0 = t := ⟨_, rfl⟩
  obtain ⟨hdR, hhdR⟩ : ∃ t, SimpleReverb.processHighFreqDelay hdL.2 spR.2.1 1 = t := ⟨_, rfl⟩
  obtain ⟨cl, hcl⟩ : ∃ t, SimpleReverb.stereoCombLoop spL.1 spR.1 hdL.1 hdR.1
      (List.finRange 4) (0, 0, 0, 0) hdR.2 = t := ⟨_, rfl⟩
  obtain ⟨⟨apL, apR, s6⟩, hap⟩ : ∃ t, SimpleReverb.allpassStereoLoop (List.finRange 4)
      (cl.1.1 + cl.1.2.2.1) (cl.1.2.1 + cl.1.2.2.2) cl.2 = t := ⟨_, rfl⟩
  have H1 := splitFrequencies_zero s 0 m hm hz
  rw [hspL] at H1
  have H2 := splitFrequencies_zero spL.2.2 1 m hm H1.2.2
  rw [hspR] at H2
  have H3 := processHighFreqDelay_zero spR.2.2 0 spL.2.1 H1.2.1 H2.2.2
  rw [hhdL] at H3
  have H4 := processHighFreqDelay_zero hdL.2 1 spR.2.1 H2.2.1 H3.2
  rw [hhdR] at H4
  have H5 := stereoCombLoop_zero (List.finRange 4) spL.1 spR.1 hdL.1 hdR.1
    (0, 0, 0, 0) hdR.2 H1.1 H2.1 H3.1 H4.1 rfl rfl rfl rfl H4.2
  rw [hcl] at H5
  obtain ⟨⟨c1, c2, c3, c4⟩, zc⟩ := H5
  have H6 := allpassStereoLoop_zero (List.finRange 4)
    (cl.1.1 + cl.1.2.2.1) (cl.1.2.1 + cl.1.2.2.2) cl.2
    (by rw [c1, c3]; norm_num) (by rw [c2, c4]; norm_num) zc
  rw [hap] at H6
  have ha1 : apL = 0 := H6.1
  have ha2 : apR = 0 := H6.2.1
  have za : ZeroFilters s6 := H6.2.2
  simp only [SimpleReverb.wetStereoSample]
  rw [hspL, hspR, hhdL, hhdR, hcl, hap]
  exact ⟨by rw [ha1, ha2]; ring, by rw [ha1, ha2]; ring, za⟩

theorem processStereoSample_zero (s : SimpleReverb.State)
    (hz : ZeroFilters s) :
    (SimpleReverb.processStereoSample s 0 0).1 = 0 ∧
    (SimpleReverb.processStereoSample s 0 0).2.1 = 0 ∧
    ZeroFilters (SimpleReverb.processStereoSample s 0 0).2.2 := by
  obtain ⟨w1, w2, zw⟩ := wetStereoSample_zero s ((0 + 0) * (1/2)) (by ring) hz
  refine ⟨?_, ?_, zw⟩
  · show s.parameters.dryLevel * 0 +
      s.parameters.wetLevel * (SimpleReverb.wetStereoSample s ((0 + 0) * (1/2))).1 = 0
    rw [w1]; ring
  · show s.parameters.dryLevel * 0 +
      s.parameters.wetLevel * (SimpleReverb.wetStereoSample s ((0 + 0) * (1/2))).2.1 = 0
    rw [w2]; ring

theorem processStereo_zero (n : ℕ) :
    ∀ s : SimpleReverb.State, ZeroFilters s →
    (SimpleReverb.processStereo s (List.replicate n 0) (List.replicate n 0)).1
      = List.replicate n 0 ∧
    (SimpleReverb.processStereo s (List.replicate n 0) (List.replicate n 0)).2.1
      = List.replicate n 0 ∧
    ZeroFilters
      (SimpleReverb.processStereo s (List.replicate n 0) (List.replicate n 0)).2.2 := by
  induction n with
  | zero => intro s hz; exact ⟨rfl, rfl, hz⟩
  | succ n ih =>
    intro s hz
    obtain ⟨p1, p2, zp⟩ := processStereoSample_zero s hz
    obtain ⟨r1, r2, zr⟩ := ih (SimpleReverb.processStereoSample s 0 0).2.2 zp
    rw [List.replicate_succ]
    refine ⟨?_, ?_, zr⟩
    · show (SimpleReverb.processStereoSample s 0 0).1 ::
        (SimpleReverb.processStereo (SimpleReverb.processStereoSample s 0 0).2.2
          (List.replicate n 0) (List.replicate n 0)).1 = 0 :: List.replicate n 0
      rw [p1, r1]
    · show (SimpleReverb.processStereoSample s 0 0).2.1 ::
        (SimpleReverb.processStereo (SimpleReverb.processStereoSample s 0 0).2.2
          (List.replicate n 0) (List.replicate n 0)).2.1 = 0 :: List.replicate n 0
      rw [p2, r2]

theorem mkSimpleReverb_ZeroFilters (e : ℚ) : ZeroFilters (SimpleReverb.mkSimpleReverb e) :=
  ⟨fun _ => all_zero_map_zero _, fun _ => rfl, fun _ => all_zero_map_zero _,
   fun _ => all_zero_map_zero _, fun _ => rfl⟩

/-- C5: processing all-zero stereo buffers of any length through a
freshly constructed (hence reset, `freezeMode = 0`) engine returns
all-zero buffers: the engine produces no spontaneous energy from silent
input. -/
theorem processStereo_silence_invariance (e : ℚ) (n : ℕ) :
    (SimpleReverb.mkSimpleReverb e).parameters.freezeMode = 0 ∧
    (SimpleReverb.processStereo (SimpleReverb.mkSimpleReverb e)
      (List.replicate n 0) (List.replicate n 0)).1 = List.replicate n 0 ∧
    (SimpleReverb.processStereo (SimpleReverb.mkSimpleReverb e)
      (List.replicate n 0) (List.replicate n 0)).2.1 = List.replicate n 0 :=
  ⟨rfl, (processStereo_zero n _ (mkSimpleReverb_ZeroFilters e)).1,
   (processStereo_zero n _ (mkSimpleReverb_ZeroFilters e)).2.1⟩

/-! ### Claim C1: comb feedback coefficients

The spec claims `coeff = (0.28 + 0.5*roomSize) * tuning[i] / 100 < 1` for
every valid `roomSize` and comb.  In fact the smallest tuning value is
1116, so the smallest possible coefficient is `0.28 * 1116 / 100 =
3.1248`: every coefficient is at least 1 for every `roomSize ≥ 0`. -/

/-- C1: the feedback coefficients computed by `setParameters` are all at
least 1 (indeed at least 3.1248) for every nonnegative `roomSize`; the
spec's assertion that they are strictly below 1 fails for every comb and
every valid `roomSize`, so impulse energy in the comb bank grows instead
of decaying. -/
theorem setParameters_feedbackCoeffs_ge_one (e : ℚ) (p : SimpleReverb.Parameters)
    (s : SimpleReverb.State) (h : 0 ≤ p.roomSize) (i : Fin 8) :
    1 ≤ (SimpleReverb.setParameters e p s).feedbackCoeffs i := by
  have hc : (1116 : ℚ) ≤ (SimpleReverb.combTuning i : ℚ) := by
    exact_mod_cast (show 1116 ≤ SimpleReverb.combTuning i by revert i; decide)
  show 1 ≤ (28/100 + 1/2 * p.roomSize) * (SimpleReverb.combTuning i : ℚ) / 100
  rw [le_div_iff₀ (by norm_num : (0:ℚ) < 100)]
  have h1 : (28/100 : ℚ) ≤ 28/100 + 1/2 * p.roomSize := by linarith
  have h2 : (28/100 : ℚ) * 1116 ≤ (28/100 + 1/2 * p.roomSize) * (SimpleReverb.combTuning i : ℚ) :=
    mul_le_mul h1 hc (by norm_num) (by linarith)
  linarith

/-- Witness for C1 at the default parameters (`roomSize = 0.5`), comb 0. -/
theorem setParameters_feedbackCoeffs_ge_one_witness :
    0 ≤ SimpleReverb.defaultParameters.roomSize ∧
    1 ≤ (SimpleReverb.setParameters 0 SimpleReverb.defaultParameters
          SimpleReverb.rawMemberState).feedbackCoeffs 0 :=
  ⟨by norm_num [SimpleReverb.defaultParameters],
   setParameters_feedbackCoeffs_ge_one 0 SimpleReverb.defaultParameters
     SimpleReverb.rawMemberState (by norm_num [SimpleReverb.defaultParameters]) 0⟩

/-! ### Claim C2: freeze mode does not sustain energy

With `freezeMode = 1` the comb write is
`input + feedback * coeff * (1 - 1) = input`: the delayed content is
read out once and replaced by the (silent) input, so a silent tail
overwrites the entire delay line with zeros within one buffer period and
the comb output is exactly zero from then on — the opposite of the
claimed indefinite recirculation.  The trace below runs the engine
configured at a 40 Hz sample rate (`setSampleRate(40)` gives every comb
a one-sample delay line, making the wipe-out visible after two steps);
`freeze_comb_write` is the sample-rate-independent core fact. -/

/-- With `freezeMode = 1`, one `processComb` step replaces the delay
slot at the cursor by the raw input: no feedback is written back. -/
theorem freeze_comb_write (s : SimpleReverb.State) (i : Fin 8) (x : ℚ)
    (h : s.parameters.freezeMode = 1) :
    ((SimpleReverb.processComb s i x).2.combs i).buf =
      (s.combs i).buf.set (s.combs i).idx x ∧
    ((SimpleReverb.processComb s i x).2.combs i).idx =
      ((s.combs i).idx + 1) % (s.combs i).buf.length := by
  unfold SimpleReverb.processComb
  simp [Function.update_same, h]

/-- The default parameters with `freezeMode = 1`. -/
def freezeParameters : SimpleReverb.Parameters :=
  { SimpleReverb.defaultParameters with freezeMode := 1 }

/-- A constructed engine reconfigured to a 40 Hz sample rate and frozen:
`SimpleReverb(); setSampleRate(40); setParameters(params with freeze=1)`.
At this rate every comb delay line has exactly one sample. -/
def freezeEngine40 : SimpleReverb.State :=
  SimpleReverb.setParameters 0 freezeParameters
    (SimpleReverb.setSampleRate 0 40 (SimpleReverb.mkSimpleReverb 0))

/-- The engine state after `k` samples have been fed to comb 0: a unit
impulse at step 0 followed by silence. -/
def combImpulseState : ℕ → SimpleReverb.State
  | 0 => freezeEngine40
  | k + 1 => (SimpleReverb.processComb (combImpulseState k) 0 (if k = 0 then 1 else 0)).2

/-- The comb-0 output at step `k` of the impulse-then-silence feed. -/
def combImpulseOut (k : ℕ) : ℚ :=
  (SimpleReverb.processComb (combImpulseState k) 0 (if k = 0 then 1 else 0)).1

theorem combImpulseState_freeze (k : ℕ) :
    (combImpulseState k).parameters.freezeMode = 1 := by
  induction k with
  | zero => rfl
  | succ k ih => exact ih

theorem mkSimpleReverb_comb0_buf :
    ((SimpleReverb.mkSimpleReverb 0).combs 0).buf = List.replicate 1116 0 := by
  show ((SimpleReverb.setSampleRate 0 44100
      (SimpleReverb.setParameters 0 SimpleReverb.defaultParameters
        SimpleReverb.rawMemberState)).combs 0).buf.map (fun _ => 0) = List.replicate 1116 0
  show (resizeList [] (cppTrunc ((SimpleReverb.combTuning 0 : ℚ) * ((44100:ℚ) / 44100))).toNat).map
      (fun _ => 0) = List.replicate 1116 0
  have h1 : ((SimpleReverb.combTuning 0 : ℚ) * ((44100:ℚ) / 44100)) = 1116 := by
    norm_num [SimpleReverb.combTuning]
  rw [h1]
  have h2 : cppTrunc 1116 = 1116 := by
    unfold cppTrunc
    rw [if_pos (by norm_num)]
    norm_num
  rw [h2]
  show (resizeList [] ((1116:ℤ)).toNat).map (fun _ => 0) = List.replicate 1116 0
  rw [show ((1116:ℤ)).toNat = 1116 from rfl]
  simp only [resizeList, List.take_nil, List.length_nil, Nat.sub_zero, List.nil_append,
    List.map_replicate]

theorem freezeEngine40_comb0_buf : (freezeEngine40.combs 0).buf = [0] := by
  show (resizeList ((SimpleReverb.mkSimpleReverb 0).combs 0).buf
      (cppTrunc ((SimpleReverb.combTuning 0 : ℚ) * ((40:ℚ) / 44100))).toNat) = [0]
  have h1 : ((SimpleReverb.combTuning 0 : ℚ) * ((40:ℚ) / 44100)) = 248/245 := by
    norm_num [SimpleReverb.combTuning]
  rw [h1]
  have h2 : cppTrunc (248/245) = 1 := by
    unfold cppTrunc
    rw [if_pos (by norm_num)]
    norm_num
  rw [h2, mkSimpleReverb_comb0_buf]
  show resizeList (List.replicate 1116 0) ((1:ℤ)).toNat = [0]
  rw [show ((1:ℤ)).toNat = 1 from rfl]
  rw [resizeList, List.take_replicate, List.length_replicate]
  norm_num

theorem freezeEngine40_comb0_idx : (freezeEngine40.combs 0).idx = 0 := rfl

theorem combImpulseState_one_buf : ((combImpulseState 1).combs 0).buf = [1] := by
  obtain ⟨hbuf, -⟩ := freeze_comb_write freezeEngine40 0 1 rfl
  show ((SimpleReverb.processComb (combImpulseState 0) 0
    (if 0 = 0 then 1 else 0)).2.combs 0).buf = [1]
  rw [if_pos rfl]
  show ((SimpleReverb.processComb freezeEngine40 0 1).2.combs 0).buf = [1]
  rw [hbuf, freezeEngine40_comb0_buf, freezeEngine40_comb0_idx]
  rfl

theorem combImpulseState_one_idx : ((combImpulseState 1).combs 0).idx = 0 := by
  obtain ⟨-, hidx⟩ := freeze_comb_write freezeEngine40 0 1 rfl
  show ((SimpleReverb.processComb (combImpulseState 0) 0
    (if 0 = 0 then 1 else 0)).2.combs 0).idx = 0
  rw [if_pos rfl]
  show ((SimpleReverb.processComb freezeEngine40 0 1).2.combs 0).idx = 0
  rw [hidx, freezeEngine40_comb0_buf, freezeEngine40_comb0_idx]
  rfl

theorem combImpulseState_wiped (k : ℕ) (h : 2 ≤ k) :
    ((combImpulseState k).combs 0).buf = [0] := by
  induction k with
  | zero => omega
  | succ k ih =>
    rcases Nat.lt_or_ge k 2 with hk | hk
    · interval_cases k
      · omega
      · obtain ⟨hbuf, -⟩ :=
          freeze_comb_write (combImpulseState 1) 0 (if 1 = 0 then 1 else 0)
            (combImpulseState_freeze 1)
        show ((SimpleReverb.processComb (combImpulseState 1) 0
          (if 1 = 0 then 1 else 0)).2.combs 0).buf = [0]
        rw [hbuf, combImpulseState_one_buf, combImpulseState_one_idx, if_neg (by norm_num)]
        rfl
    · obtain ⟨hbuf, -⟩ :=
        freeze_comb_write (combImpulseState k) 0 (if k = 0 then 1 else 0)
          (combImpulseState_freeze k)
      show ((SimpleReverb.processComb (combImpulseState k) 0
        (if k = 0 then 1 else 0)).2.combs 0).buf = [0]
      rw [hbuf, ih hk, if_neg (by omega)]
      rcases ((combImpulseState k).combs 0).idx with _ | n <;> rfl

theorem combImpulseOut_one : combImpulseOut 1 = 1 := by
  show ((combImpulseState 1).combs 0).buf.getD ((combImpulseState 1).combs 0).idx 0 = 1
  rw [combImpulseState_one_buf, combImpulseState_one_idx]
  rfl

theorem combImpulseOut_eventually_zero (t : ℕ) (h : 2 ≤ t) : combImpulseOut t = 0 := by
  have hbuf := combImpulseState_wiped t h
  show ((combImpulseState t).combs 0).buf.getD ((combImpulseState t).combs 0).idx 0 = 0
  rw [hbuf]
  rcases ((combImpulseState t).combs 0).idx with _ | n <;> rfl

/-- C2: with `freezeMode = 1.0`, a unit impulse fed into comb 0 of the
frozen engine recirculates exactly once (the output at step 1 is 1) and
the comb output is exactly zero at every later step: the impulse energy
is wiped out by the silent tail instead of being sustained, because with
freeze engaged the comb write stores the raw (silent) input and discards
the feedback. -/
theorem freeze_impulse_energy_vanishes :
    combImpulseOut 1 = 1 ∧ ∀ t, 2 ≤ t → combImpulseOut t = 0 :=
  ⟨combImpulseOut_one, combImpulseOut_eventually_zero⟩

/-- Witness for C2 at step 5 of the silent tail. -/
theorem freeze_impulse_energy_vanishes_witness :
    combImpulseOut 1 = 1 ∧ (2 ≤ 5 ∧ combImpulseOut 5 = 0) :=
  ⟨freeze_impulse_energy_vanishes.1,
   by norm_num, freeze_impulse_energy_vanishes.2 5 (by norm_num)⟩

/-! ### Claim C6: crossover split completeness -/

/-- C9: one step of `processAllpass` returns `-input + delayed` where
`delayed` is the value at the current cursor, stores
`input + output * 0.5` into that slot, and advances the cursor by one
modulo the buffer length. -/
theorem processAllpass_step_spec (s : SimpleReverb.State) (i : Fin 4) (x : ℚ)
    (h : (s.allpasses i).idx < (s.allpasses i).buf.length) :
    (SimpleReverb.processAllpass s i x).1 =
      -x + (s.allpasses i).buf.get ⟨(s.allpasses i).idx, h⟩ ∧
    ((SimpleReverb.processAllpass s i x).2.allpasses i).buf =
      (s.allpasses i).buf.set (s.allpasses i).idx
        (x + (-x + (s.allpasses i).buf.get ⟨(s.allpasses i).idx, h⟩) * (1/2)) ∧
    ((SimpleReverb.processAllpass s i x).2.allpasses i).idx =
      ((s.allpasses i).idx + 1) % (s.allpasses i).buf.length := by
  unfold SimpleReverb.processAllpass
  simp [Function.update_same, List.get_eq_getElem, List.getD_eq_getElem?_getD,
    List.getElem?_eq_getElem h]

/-- A small concrete engine state used by witnesses: a single-element
allpass delay line holding the value 5. -/
def testAllpassState : SimpleReverb.State :=
  { SimpleReverb.rawMemberState with allpasses := fun _ => ⟨[5], 0⟩ }

/-- Witness for C9 on the one-slot delay line holding 5, input 3. -/
theorem processAllpass_step_spec_witness :
    (testAllpassState.allpasses 0).idx < (testAllpassState.allpasses 0).buf.length ∧
    (SimpleReverb.processAllpass testAllpassState 0 3).1 =
      -3 + (testAllpassState.allpasses 0).buf.get ⟨(testAllpassState.allpasses 0).idx, by decide⟩ :=
  ⟨by decide, (processAllpass_step_spec testAllpassState 0 3 (by decide)).1⟩

/-! ### Claim C7: processing before configuration

`processMono`/`processStereo` contain no state check and no error
channel (`void` return, no exception): a call on an engine that has not
been configured silently processes.  In addition the constructor itself
calls `setSampleRate(44100.0f)`, so an unconfigured engine is not even
reachable through the public interface. -/

theorem cppTrunc_natCast (n : ℕ) : cppTrunc (n : ℚ) = n := by
  unfold cppTrunc
  rw [if_pos (by positivity)]
  exact_mod_cast Int.floor_natCast n

theorem combTuning_pos (i : Fin 8) : 0 < SimpleReverb.combTuning i := by
  revert i; decide

/-- C7 counterexample: `processMono` (and `processStereo`) invoked on the
member-initialised, unconfigured engine state with a zero-length buffer
return normally with the buffer unchanged — a silent no-op, not an
explicit failure; the interface has no error value a caller could
observe. -/
theorem processMono_unconfigured_silent_noop :
    SimpleReverb.processMono SimpleReverb.rawMemberState [] =
      ([], SimpleReverb.rawMemberState) ∧
    SimpleReverb.processStereo SimpleReverb.rawMemberState [] [] =
      ([], [], SimpleReverb.rawMemberState) :=
  ⟨rfl, rfl⟩

/-- C7 amended: the processing operations perform no configuration check
and signal no error (a zero-length call on the unconfigured engine is a
silent no-op); instead, the constructor itself calls
`setSampleRate(44100)`, so every constructed engine already has its comb
delay lines allocated at their full (positive) tuning lengths. -/
theorem processing_unchecked_constructor_configures (e : ℚ) :
    SimpleReverb.processMono SimpleReverb.rawMemberState [] =
      ([], SimpleReverb.rawMemberState) ∧
    ∀ i : Fin 8,
      ((SimpleReverb.mkSimpleReverb e).combs i).buf.length = SimpleReverb.combTuning i ∧
      0 < ((SimpleReverb.mkSimpleReverb e).combs i).buf.length := by
  refine ⟨rfl, fun i => ?_⟩
  have hlen : ((SimpleReverb.mkSimpleReverb e).combs i).buf.length
      = SimpleReverb.combTuning i := by
    show ((resizeList []
      (cppTrunc ((SimpleReverb.combTuning i : ℚ) * ((44100:ℚ) / 44100))).toNat).map
        (fun _ => 0)).length = SimpleReverb.combTuning i
    rw [List.length_map]
    have h1 : ((SimpleReverb.combTuning i : ℚ) * ((44100:ℚ) / 44100))
        = (SimpleReverb.combTuning i : ℚ) := by norm_num
    rw [h1, cppTrunc_natCast, Int.toNat_natCast]
    simp [resizeList]
  exact ⟨hlen, by rw [hlen]; exact combTuning_pos i⟩

/-! ### Claim C10: the wet path depends on the inputs only through their sum -/

theorem stereoCombLoop_parameters (a b c d : ℚ) (js : List (Fin 4)) :
    ∀ (acc : ℚ × ℚ × ℚ × ℚ) (s : SimpleReverb.State),
    (SimpleReverb.stereoCombLoop a b c d js acc s).2.parameters = s.parameters := by
  induction js with
  | nil => intro acc s; rfl
  | cons j js ih => intro acc s; exact ih _ _

theorem allpassStereoLoop_parameters (js : List (Fin 4)) :
    ∀ (l r : ℚ) (s : SimpleReverb.State),
    (SimpleReverb.allpassStereoLoop js l r s).2.2.parameters = s.parameters := by
  induction js with
  | nil => intro l r s; rfl
  | cons j js ih => intro l r s; exact ih _ _ _

theorem processHighFreqDelay_parameters (s : SimpleReverb.State) (x : ℚ) (ch : Fin 2) :
    (SimpleReverb.processHighFreqDelay s x ch).2.parameters = s.parameters := rfl

theorem splitFrequencies_parameters (s : SimpleReverb.State) (x : ℚ) (ch : Fin 2) :
    (SimpleReverb.splitFrequencies s x ch).2.2.parameters = s.parameters := rfl

theorem wetStereoSample_parameters (s : SimpleReverb.State) (m : ℚ) :
    (SimpleReverb.wetStereoSample s m).2.2.parameters = s.parameters := by
  obtain ⟨spL, hspL⟩ : ∃ t, SimpleReverb.splitFrequencies s m 0 = t := ⟨_, rfl⟩
  obtain ⟨spR, hspR⟩ : ∃ t, SimpleReverb.splitFrequencies spL.2.2 m 1 = t := ⟨_, rfl⟩
  obtain ⟨hdL, hhdL⟩ : ∃ t, SimpleReverb.processHighFreqDelay spR.2.2 spL.2.1 0 = t := ⟨_, rfl⟩
  obtain ⟨hdR, hhdR⟩ : ∃ t, SimpleReverb.processHighFreqDelay hdL.2 spR.2.1 1 = t := ⟨_, rfl⟩
  obtain ⟨cl, hcl⟩ : ∃ t, SimpleReverb.stereoCombLoop spL.1 spR.1 hdL.1 hdR.1
      (List.finRange 4) (0, 0, 0, 0) hdR.2 = t := ⟨_, rfl⟩
  obtain ⟨⟨apL, apR, s6⟩, hap⟩ : ∃ t, SimpleReverb.allpassStereoLoop (List.finRange 4)
      (cl.1.1 + cl.1.2.2.1) (cl.1.2.1 + cl.1.2.2.2) cl.2 = t := ⟨_, rfl⟩
  have e6 : s6.parameters = cl.2.parameters := by
    have h := allpassStereoLoop_parameters (List.finRange 4)
      (cl.1.1 + cl.1.2.2.1) (cl.1.2.1 + cl.1.2.2.2) cl.2
    rw [hap] at h
    exact h
  have e5 : cl.2.parameters = hdR.2.parameters := by
    have h := stereoCombLoop_parameters spL.1 spR.1 hdL.1 hdR.1 (List.finRange 4)
      (0, 0, 0, 0) hdR.2
    rw [hcl] at h
    exact h
  have e4 : hdR.2.parameters = hdL.2.parameters := by rw [← hhdR]; rfl
  have e3 : hdL.2.parameters = spR.2.2.parameters := by rw [← hhdL]; rfl
  have e2 : spR.2.2.parameters = spL.2.2.parameters := by rw [← hspR]; rfl
  have e1 : spL.2.2.parameters = s.parameters := by rw [← hspL]; rfl
  simp only [SimpleReverb.wetStereoSample]
  rw [hspL, hspR, hhdL, hhdR, hcl, hap]
  exact e6.trans (e5.trans (e4.trans (e3.trans (e2.trans e1))))

theorem processStereoSample_parameters (s : SimpleReverb.State) (l r : ℚ) :
    (SimpleReverb.processStereoSample s l r).2.2.parameters = s.parameters := by
  simp only [SimpleReverb.processStereoSample]
  exact wetStereoSample_parameters s _

theorem processStereoSample_wet_mono (s : SimpleReverb.State) (l r l2 r2 : ℚ)
    (h : l + r = l2 + r2) :
    (SimpleReverb.processStereoSample s l r).2.2
      = (SimpleReverb.processStereoSample s l2 r2).2.2 ∧
    (SimpleReverb.processStereoSample s l r).1 - s.parameters.dryLevel * l
      = (SimpleReverb.processStereoSample s l2 r2).1 - s.parameters.dryLevel * l2 ∧
    (SimpleReverb.processStereoSample s l r).2.1 - s.parameters.dryLevel * r
      = (SimpleReverb.processStereoSample s l2 r2).2.1 - s.parameters.dryLevel * r2 := by
  have hm : (l + r) * (1/2 : ℚ) = (l2 + r2) * (1/2) := by rw [h]
  refine ⟨?_, ?_, ?_⟩
  · show (SimpleReverb.wetStereoSample s ((l + r) * (1/2))).2.2
      = (SimpleReverb.wetStereoSample s ((l2 + r2) * (1/2))).2.2
    rw [hm]
  · show s.parameters.dryLevel * l +
        s.parameters.wetLevel * (SimpleReverb.wetStereoSample s ((l + r) * (1/2))).1
        - s.parameters.dryLevel * l
      = s.parameters.dryLevel * l2 +
        s.parameters.wetLevel * (SimpleReverb.wetStereoSample s ((l2 + r2) * (1/2))).1
        - s.parameters.dryLevel * l2
    rw [hm]; ring
  · show s.parameters.dryLevel * r +
        s.parameters.wetLevel * (SimpleReverb.wetStereoSample s ((l + r) * (1/2))).2.1
        - s.parameters.dryLevel * r
      = s.parameters.dryLevel * r2 +
        s.parameters.wetLevel * (SimpleReverb.wetStereoSample s ((l2 + r2) * (1/2))).2.1
        - s.parameters.dryLevel * r2
    rw [hm]; ring

/-- C10: two `processStereo` runs from the same engine state whose input
buffers have equal per-sample channel sums end in the same engine state
and produce identical wet signals: subtracting the dry terms
`dryLevel * input` from the outputs pointwise yields the same sequence
for both runs, on each channel. -/
theorem processStereo_wet_depends_on_sum (L1 : List ℚ) :
    ∀ (R1 L2 R2 : List ℚ) (s : SimpleReverb.State),
    List.zipWith (· + ·) L1 R1 = List.zipWith (· + ·) L2 R2 →
    L1.length = R1.length → L2.length = R2.length → L1.length = L2.length →
    (SimpleReverb.processStereo s L1 R1).2.2 = (SimpleReverb.processStereo s L2 R2).2.2 ∧
    List.zipWith (fun o i => o - s.parameters.dryLevel * i)
        (SimpleReverb.processStereo s L1 R1).1 L1
      = List.zipWith (fun o i => o - s.parameters.dryLevel * i)
        (SimpleReverb.processStereo s L2 R2).1 L2 ∧
    List.zipWith (fun o i => o - s.parameters.dryLevel * i)
        (SimpleReverb.processStereo s L1 R1).2.1 R1
      = List.zipWith (fun o i => o - s.parameters.dryLevel * i)
        (SimpleReverb.processStereo s L2 R2).2.1 R2 := by
  induction L1 with
  | nil =>
    intro R1 L2 R2 s hsum h1 h2 h3
    have hL2 : L2 = [] := List.length_eq_zero.mp (by simpa using h3.symm)
    subst hL2
    have hR1 : R1 = [] := List.length_eq_zero.mp (by simpa using h1.symm)
    subst hR1
    have hR2 : R2 = [] := List.length_eq_zero.mp (by simpa using h2.symm)
    subst hR2
    exact ⟨rfl, rfl, rfl⟩
  | cons l1 L1 ih =>
    intro R1 L2 R2 s hsum h1 h2 h3
    rcases R1 with _ | ⟨r1, R1⟩
    · simp at h1
    rcases L2 with _ | ⟨l2, L2⟩
    · simp at h3
    rcases R2 with _ | ⟨r2, R2⟩
    · simp at h2
    rw [List.zipWith_cons_cons, List.zipWith_cons_cons] at hsum
    injection hsum with hhead htail
    obtain ⟨hstate, hwl, hwr⟩ := processStereoSample_wet_mono s l1 r1 l2 r2 hhead
    have hparams := processStereoSample_parameters s l1 r1
    obtain ⟨ih1, ih2, ih3⟩ := ih R1 L2 R2 ((SimpleReverb.processStereoSample s l1 r1).2.2)
      htail (by simpa using h1) (by simpa using h2) (by simpa using h3)
    rw [hparams] at ih2 ih3
    simp only [SimpleReverb.processStereo, List.zipWith_cons_cons]
    refine ⟨?_, ?_, ?_⟩
    · rw [← hstate]
      exact ih1
    · rw [← hstate, hwl, ih2]
    · rw [← hstate, hwr, ih3]

/-- Witness for C10 with the swapped one-sample buffers `[1],[0]` and
`[0],[1]` on the member-initialised state. -/
theorem processStereo_wet_depends_on_sum_witness :
    List.zipWith (· + ·) [(1:ℚ)] [0] = List.zipWith (· + ·) [0] [1] ∧
    (SimpleReverb.processStereo SimpleReverb.rawMemberState [1] [0]).2.2
      = (SimpleReverb.processStereo SimpleReverb.rawMemberState [0] [1]).2.2 :=
  ⟨by simp,
   (processStereo_wet_depends_on_sum [1] [0] [0] [1] SimpleReverb.rawMemberState
      (by simp) rfl rfl rfl).1⟩

/-! ### Claim C8: Hann window division by zero -/

theorem hannWindowLoop_ne_none (cosFn : ℚ → ℚ) (numSamples : ℕ)
    (h : ((numSamples : ℚ) - 1) ≠ 0) :
    ∀ is : List ℕ, SpectrumAnalyzer.hannWindowLoop cosFn numSamples is ≠ none := by
  intro is
  induction is with
  | nil => simp [SpectrumAnalyzer.hannWindowLoop]
  | cons i is ih =>
    unfold SpectrumAnalyzer.hannWindowLoop
    rw [SpectrumAnalyzer.checkedDiv, if_neg h]
    cases hr : SpectrumAnalyzer.hannWindowLoop cosFn numSamples is with
    | none => exact absurd hr ih
    | some ws => simp

/-- C8: the Hann-window pass of `calculateMagnitudeSpectrum` (at the
engine's FFT size 2048) hits the divisor `numSamples - 1 = 0` exactly
when `numSamples = 1`: for `numSamples = 0` the loop body never runs and
for `numSamples ≥ 2` the divisor is nonzero. -/
theorem hannWindow_none_iff (cosFn : ℚ → ℚ) (numSamples : ℕ) :
    SpectrumAnalyzer.hannWindow cosFn numSamples SpectrumAnalyzer.fftSizeVal = none ↔
      numSamples = 1 := by
  rcases numSamples with _ | _ | n
  · simp [SpectrumAnalyzer.hannWindow, SpectrumAnalyzer.hannWindowLoop,
      SpectrumAnalyzer.fftSizeVal]
  · simp [SpectrumAnalyzer.hannWindow, SpectrumAnalyzer.hannWindowLoop,
      SpectrumAnalyzer.checkedDiv, SpectrumAnalyzer.fftSizeVal, List.range_succ]
  · have hd : ((n + 2 : ℕ) : ℚ) - 1 ≠ 0 := by
      have hn : (0:ℚ) ≤ (n:ℚ) := Nat.cast_nonneg n
      push_cast
      intro hc
      linarith
    simp only [SpectrumAnalyzer.hannWindow]
    constructor
    · intro hnone
      exact absurd hnone (hannWindowLoop_ne_none cosFn (n + 2) hd _)
    · omega

/-! ### Claim C4: magnitude-spectrum write overflows scopeData -/

theorem writeMagnitudes_none_of_short (vals : List ℚ) :
    ∀ (out : List ℚ) (start : ℕ), out.length < start + vals.length →
      0 < vals.length → SpectrumAnalyzer.writeMagnitudes out vals start = none := by
  induction vals with
  | nil => intro out start _ hpos; simp at hpos
  | cons v vs ih =>
    intro out start hlen _
    unfold SpectrumAnalyzer.writeMagnitudes SpectrumAnalyzer.setAtOpt
    by_cases hs : start < out.length
    · rw [if_pos hs]
      rcases vs with _ | ⟨w, ws⟩
      · exfalso; simp at hlen; omega
      · exact ih (out.set start v) (start + 1)
          (by simp only [List.length_set]; simp at hlen ⊢; omega) (by simp)
    · rw [if_neg hs]

/-- C4: the output loop of `calculateMagnitudeSpectrum`, as invoked by
`SpectrumAnalyzer::update`, writes `fftSize/2 = 1024` magnitude values
into `scopeData`, whose length is `scopeSize = 512`; in the checked
embedding the store fails (out of bounds at index 512), so the claim
that every access stays in bounds is false for the code. -/
theorem update_scopeData_write_overflow (vals : List ℚ)
    (h : vals.length = SpectrumAnalyzer.fftSizeVal / 2) :
    SpectrumAnalyzer.writeMagnitudes
      (List.replicate SpectrumAnalyzer.scopeSizeVal 0) vals 0 = none := by
  apply writeMagnitudes_none_of_short
  · simp only [List.length_replicate, h, SpectrumAnalyzer.fftSizeVal,
      SpectrumAnalyzer.scopeSizeVal]
    norm_num
  · rw [h]; norm_num [SpectrumAnalyzer.fftSizeVal]


/-! ### Claim C3: pushSample double-buffering

The source snapshots the FIFO into the analysis buffer only `if
(!nextFFTBlockReady)`; when a full window accumulates while a frame is
still pending, the FIFO index is reset without a copy and that window is
discarded.  The claim's "regardless of whether update() has consumed the
previous frame" is therefore false; the lemmas below compute the exact
trace that drops a window. -/

theorem pushSample_below_fields (s : SpectrumAnalyzer.AnalyzerState) (x : ℚ)
    (h : s.fifoIndex ≠ s.fftSize) :
    (SpectrumAnalyzer.pushSample s x).fftSize = s.fftSize ∧
    (SpectrumAnalyzer.pushSample s x).fifoIndex = s.fifoIndex + 1 ∧
    (SpectrumAnalyzer.pushSample s x).nextFFTBlockReady = s.nextFFTBlockReady ∧
    (SpectrumAnalyzer.pushSample s x).fftData = s.fftData ∧
    ∀ p, (SpectrumAnalyzer.pushSample s x).fifo p = if p = s.fifoIndex then x else s.fifo p := by
  simp [SpectrumAnalyzer.pushSample, if_neg h]

theorem pushSample_capacity_notready_fields (s : SpectrumAnalyzer.AnalyzerState) (x : ℚ)
    (h1 : s.fifoIndex = s.fftSize) (h2 : s.nextFFTBlockReady = false) :
    (SpectrumAnalyzer.pushSample s x).fftSize = s.fftSize ∧
    (SpectrumAnalyzer.pushSample s x).fifoIndex = 1 ∧
    (SpectrumAnalyzer.pushSample s x).nextFFTBlockReady = true ∧
    (∀ p, (SpectrumAnalyzer.pushSample s x).fftData p =
      if p < s.fftSize then s.fifo p else s.fftData p) ∧
    ∀ p, (SpectrumAnalyzer.pushSample s x).fifo p = if p = 0 then x else s.fifo p := by
  simp [SpectrumAnalyzer.pushSample, if_pos h1, h2]

theorem pushSample_capacity_ready_fields (s : SpectrumAnalyzer.AnalyzerState) (x : ℚ)
    (h1 : s.fifoIndex = s.fftSize) (h2 : s.nextFFTBlockReady = true) :
    (SpectrumAnalyzer.pushSample s x).fftSize = s.fftSize ∧
    (SpectrumAnalyzer.pushSample s x).fifoIndex = 1 ∧
    (SpectrumAnalyzer.pushSample s x).nextFFTBlockReady = true ∧
    (SpectrumAnalyzer.pushSample s x).fftData = s.fftData ∧
    ∀ p, (SpectrumAnalyzer.pushSample s x).fifo p = if p = 0 then x else s.fifo p := by
  simp [SpectrumAnalyzer.pushSample, if_pos h1, h2]

theorem pushManyC_fields (v : ℚ) (n : ℕ) :
    ∀ s : SpectrumAnalyzer.AnalyzerState, s.fifoIndex + n ≤ s.fftSize →
    (SpectrumAnalyzer.pushManyC v n s).fftSize = s.fftSize ∧
    (SpectrumAnalyzer.pushManyC v n s).fifoIndex = s.fifoIndex + n ∧
    (SpectrumAnalyzer.pushManyC v n s).nextFFTBlockReady = s.nextFFTBlockReady ∧
    (SpectrumAnalyzer.pushManyC v n s).fftData = s.fftData ∧
    ∀ p, (SpectrumAnalyzer.pushManyC v n s).fifo p =
      if s.fifoIndex ≤ p ∧ p < s.fifoIndex + n then v else s.fifo p := by
  induction n with
  | zero =>
    intro s _
    exact ⟨rfl, rfl, rfl, rfl, fun p => (if_neg (by omega)).symm⟩
  | succ n ih =>
    intro s h
    obtain ⟨e1, e2, e3, e4, e5⟩ := pushSample_below_fields s v (by omega)
    obtain ⟨f1, f2, f3, f4, f5⟩ := ih (SpectrumAnalyzer.pushSample s v) (by rw [e2, e1]; omega)
    rw [show SpectrumAnalyzer.pushManyC v (n + 1) s
        = SpectrumAnalyzer.pushManyC v n (SpectrumAnalyzer.pushSample s v) from rfl]
    refine ⟨by rw [f1, e1], by rw [f2, e2]; omega, by rw [f3, e3], by rw [f4, e4], ?_⟩
    intro p
    rw [f5 p, e2, e5 p]
    by_cases h1 : s.fifoIndex + 1 ≤ p ∧ p < s.fifoIndex + 1 + n
    · rw [if_pos h1, if_pos (by omega)]
    · rw [if_neg h1]
      by_cases h2 : p = s.fifoIndex
      · rw [if_pos h2, if_pos (by omega)]
      · rw [if_neg h2, if_neg (by omega)]

theorem pushManyC_reachable (v : ℚ) (n : ℕ) :
    ∀ s : SpectrumAnalyzer.AnalyzerState, SpectrumAnalyzer.ReachableA s →
    SpectrumAnalyzer.ReachableA (SpectrumAnalyzer.pushManyC v n s) := by
  induction n with
  | zero => exact fun s h => h
  | succ n ih => exact fun s h => ih _ (SpectrumAnalyzer.ReachableA.push s v h)

/-- The analyzer state after pushing one full window of 1s, one sample
crossing capacity (value 2, which snapshots the window of 1s), and 2047
further 2s with no intervening `update()`: the FIFO again sits at
capacity holding the window of 2s, while the ready flag is still set and
the analysis buffer still holds the window of 1s. -/
def droppedWindowState : SpectrumAnalyzer.AnalyzerState :=
  SpectrumAnalyzer.pushManyC 2 2047
    (SpectrumAnalyzer.pushSample (SpectrumAnalyzer.pushManyC 1 2048 SpectrumAnalyzer.initAnalyzer) 2)

theorem droppedWindowState_spec :
    droppedWindowState.fftSize = 2048 ∧
    droppedWindowState.fifoIndex = 2048 ∧
    droppedWindowState.nextFFTBlockReady = true ∧
    droppedWindowState.fifo 0 = 2 ∧
    droppedWindowState.fftData 0 = 1 := by
  obtain ⟨a1, a2, a3, a4, a5⟩ :=
    pushManyC_fields 1 2048 SpectrumAnalyzer.initAnalyzer (by decide)
  obtain ⟨b1, b2, b3, b4, b5⟩ :=
    pushSample_capacity_notready_fields (SpectrumAnalyzer.pushManyC 1 2048 SpectrumAnalyzer.initAnalyzer) 2
      (by rw [a2, a1]; rfl) (by rw [a3]; rfl)
  obtain ⟨c1, c2, c3, c4, c5⟩ :=
    pushManyC_fields 2 2047
      (SpectrumAnalyzer.pushSample (SpectrumAnalyzer.pushManyC 1 2048 SpectrumAnalyzer.initAnalyzer) 2)
      (by rw [b2, b1, a1]; decide)
  unfold droppedWindowState
  refine ⟨?_, ?_, ?_, ?_, ?_⟩
  · rw [c1, b1, a1]; rfl
  · rw [c2, b2]
  · rw [c3, b3]
  · rw [c5 0, if_neg (by rw [b2]; omega), b5 0, if_pos rfl]
  · rw [c4, b4 0, if_pos (by rw [a1]; decide), a5 0, if_pos (by decide)]

theorem droppedWindowState_reachable : SpectrumAnalyzer.ReachableA droppedWindowState :=
  pushManyC_reachable 2 2047 _
    (SpectrumAnalyzer.ReachableA.push _ 2
      (pushManyC_reachable 1 2048 _ SpectrumAnalyzer.ReachableA.init))

/-- C3 counterexample: it is not true that, for every reachable analyzer
state, reaching FIFO capacity makes the next `pushSample` copy the FIFO
into the analysis buffer and raise the ready flag regardless of whether
`update()` has consumed the previous frame: from the reachable state in
which a frame is still pending, the push resets the FIFO without
copying, so the accumulated window (here the window of 2s) is discarded
while `fftData` still holds the previous window of 1s. -/
theorem pushSample_full_copy_claim_false :
    ¬ (∀ s : SpectrumAnalyzer.AnalyzerState, SpectrumAnalyzer.ReachableA s →
        s.fifoIndex = s.fftSize → ∀ x : ℚ,
        (SpectrumAnalyzer.pushSample s x).nextFFTBlockReady = true ∧
        ∀ n < s.fftSize, (SpectrumAnalyzer.pushSample s x).fftData n = s.fifo n) := by
  intro hclaim
  obtain ⟨hsz, hidx, hready, hfifo0, hfft0⟩ := droppedWindowState_spec
  have h := (hclaim droppedWindowState droppedWindowState_reachable (by rw [hidx, hsz]) 3).2
    0 (by rw [hsz]; norm_num)
  obtain ⟨-, -, -, hdata, -⟩ :=
    pushSample_capacity_ready_fields droppedWindowState 3 (by rw [hidx, hsz]) hready
  rw [hdata, hfft0, hfifo0] at h
  norm_num at h

/-- C3 amended: when the FIFO reaches capacity, the next `pushSample`
snapshots it into the analysis buffer and raises the ready flag only if
no frame is currently pending; if the previous frame has not been
consumed yet, the FIFO index is reset without a copy and that window is
discarded (the analysis buffer is left unchanged). -/
theorem pushSample_full_copy_guarded (s : SpectrumAnalyzer.AnalyzerState) (x : ℚ)
    (h : s.fifoIndex = s.fftSize) :
    (s.nextFFTBlockReady = false →
      (SpectrumAnalyzer.pushSample s x).nextFFTBlockReady = true ∧
      ∀ n < s.fftSize, (SpectrumAnalyzer.pushSample s x).fftData n = s.fifo n) ∧
    (s.nextFFTBlockReady = true →
      (SpectrumAnalyzer.pushSample s x).nextFFTBlockReady = true ∧
      (SpectrumAnalyzer.pushSample s x).fftData = s.fftData) := by
  constructor
  · intro h2
    obtain ⟨-, -, hready, hdata, -⟩ := pushSample_capacity_notready_fields s x h h2
    exact ⟨hready, fun n hn => by rw [hdata n, if_pos hn]⟩
  · intro h2
    obtain ⟨-, -, hready, hdata, -⟩ := pushSample_capacity_ready_fields s x h h2
    exact ⟨hready, hdata⟩

/-- Witness for C3's amended theorem at the reachable at-capacity state. -/
theorem pushSample_full_copy_guarded_witness :
    droppedWindowState.fifoIndex = droppedWindowState.fftSize ∧
    (droppedWindowState.nextFFTBlockReady = true →
      (SpectrumAnalyzer.pushSample droppedWindowState 3).nextFFTBlockReady = true ∧
      (SpectrumAnalyzer.pushSample droppedWindowState 3).fftData = droppedWindowState.fftData) :=
  ⟨by rw [droppedWindowState_spec.2.1, droppedWindowState_spec.1],
   (pushSample_full_copy_guarded droppedWindowState 3
      (by rw [droppedWindowState_spec.2.1, droppedWindowState_spec.1])).2⟩

/-- Witness for C4 with 1024 zero magnitudes. -/
theorem update_scopeData_write_overflow_witness :
    (List.replicate 1024 (0:ℚ)).length = SpectrumAnalyzer.fftSizeVal / 2 ∧
    SpectrumAnalyzer.writeMagnitudes
      (List.replicate SpectrumAnalyzer.scopeSizeVal 0) (List.replicate 1024 0) 0 = none :=
  ⟨by norm_num [SpectrumAnalyzer.fftSizeVal],
   update_scopeData_write_overflow _ (by norm_num [SpectrumAnalyzer.fftSizeVal])⟩

end ReverbWave
